import Mathlib

/-!
Verification development for the qbit_monitor repository.

The definitions below are shallow embeddings of the Python source:
SQLite tables become lists of row records, timestamps and float values
become rationals, and each method is translated into a pure function
that returns its result together with the updated table.  Randomness
(jitter) and remote-API outcomes are passed in as explicit parameters.
-/

namespace Storage

/-- A row of the `tasks` table created by `core/storage.py`
(`TaskStore._create_tables`): primary key `(torrent_hash, task_type)`,
plus `status`, `retry_count`, `created_time`, `updated_time`. -/
structure Row where
  torrent_hash : String
  task_type : String
  status : String
  retry_count : Nat
  created_time : Rat
  updated_time : Rat
deriving Repr, DecidableEq

/-- Embedding of `TaskStore.save_task` (core/storage.py).  Mirrors the
three SQL statements: the hash-wide `SELECT … status='processing'`
guard, the `INSERT OR IGNORE` of a fresh pending row, and the fallback
`UPDATE … SET status='pending' WHERE … AND status != 'processing'`.
Returns the boolean result together with the updated table. -/
def save_task (db : List Row) (h t : String) (now : Rat) : Bool × List Row :=
  if db.any (fun r => r.torrent_hash == h && r.status == "processing") then
    (false, db)
  else if db.any (fun r => r.torrent_hash == h && r.task_type == t) then
    -- INSERT OR IGNORE ignored the insert; the UPDATE runs next.
    let affected :=
      db.any (fun r =>
        r.torrent_hash == h && r.task_type == t && r.status != "processing")
    (affected,
      db.map (fun r =>
        if r.torrent_hash == h && r.task_type == t && r.status != "processing" then
          { r with status := "pending", updated_time := now }
        else r))
  else
    (true, db ++ [{ torrent_hash := h, task_type := t, status := "pending",
                    retry_count := 0, created_time := now, updated_time := now }])

/-- Embedding of `TaskStore.task_exists` (core/storage.py). -/
def task_exists (db : List Row) (h t : String) : Bool :=
  db.any (fun r => r.torrent_hash == h && r.task_type == t)

/-- Embedding of `TaskStore.complete_task` (core/storage.py):
`DELETE FROM tasks WHERE torrent_hash = ? AND task_type = ?`; the
boolean is `rowcount > 0`. -/
def complete_task (db : List Row) (h t : String) : Bool × List Row :=
  (db.any (fun r => r.torrent_hash == h && r.task_type == t),
   db.filter (fun r => !(r.torrent_hash == h && r.task_type == t)))

/-- Ordering used by `ORDER BY created_time ASC`. -/
def byCreated (a b : Row) : Prop :=
  a.created_time ≤ b.created_time

instance : DecidableRel byCreated := fun a b =>
  inferInstanceAs (Decidable (a.created_time ≤ b.created_time))

instance : IsTotal Row byCreated :=
  ⟨fun a b => le_total a.created_time b.created_time⟩

instance : IsTrans Row byCreated :=
  ⟨fun _ _ _ hab hbc => le_trans hab hbc⟩

/-- The guarded `UPDATE tasks SET status='processing', updated_time=?
WHERE torrent_hash=? AND task_type=? AND status='pending'` from
`TaskStore.get_pending_tasks`; the boolean is `rowcount > 0`. -/
def claim_row (db : List Row) (h t : String) (now : Rat) : Bool × List Row :=
  (db.any (fun r =>
      r.torrent_hash == h && r.task_type == t && r.status == "pending"),
   db.map (fun r =>
      if r.torrent_hash == h && r.task_type == t && r.status == "pending" then
        { r with status := "processing", updated_time := now }
      else r))

/-- The claim loop of `TaskStore.get_pending_tasks`: for each selected
row run the guarded update and keep the row (with `updated_time` set to
now, the remaining fields copied from the selected snapshot) only when
the update affected it. -/
def claim_loop (now : Rat) : List Row → List Row → List Row × List Row
  | [], db => ([], db)
  | s :: rest, db =>
    let c := claim_row db s.torrent_hash s.task_type now
    let next := claim_loop now rest c.2
    (if c.1 then { s with updated_time := now } :: next.1 else next.1, next.2)

/-- Embedding of `TaskStore.get_pending_tasks` (core/storage.py):
`SELECT … WHERE status = 'pending' ORDER BY created_time ASC LIMIT ?`
followed by the guarded per-row claim. -/
def get_pending_tasks (db : List Row) (limit : Nat) (now : Rat) :
    List Row × List Row :=
  claim_loop now
    (((db.filter (fun r => r.status == "pending")).insertionSort byCreated).take limit)
    db

/-- A task row as the specification describes the schema (§6): it also
carries a `next_retry` column, which the code's schema does not have. -/
structure SpecRow where
  torrent_hash : String
  task_type : String
  status : String
  retry_count : Nat
  next_retry : Rat
  created_time : Rat
deriving Repr, DecidableEq

/-- Projection of a spec-level row onto the columns the code's schema
actually has. -/
def SpecRow.toRow (r : SpecRow) : Row :=
  { torrent_hash := r.torrent_hash, task_type := r.task_type,
    status := r.status, retry_count := r.retry_count,
    created_time := r.created_time, updated_time := r.created_time }

/-- Ordering the specification gives for `claim_pending`: pending rows
first, then `created_time` ascending. -/
def specOrder (a b : SpecRow) : Prop :=
  (a.status == "pending" && !(b.status == "pending")) = true ∨
    ((a.status == "pending") = (b.status == "pending") ∧
      a.created_time ≤ b.created_time)

instance : DecidableRel specOrder := fun a b => by
  unfold specOrder; infer_instance

instance : IsTotal SpecRow specOrder := by
  constructor
  intro a b
  unfold specOrder
  by_cases hap : (a.status == "pending") = true <;>
    by_cases hbp : (b.status == "pending") = true <;>
    rcases le_total a.created_time b.created_time with h | h <;>
    simp [hap, hbp, h]

instance : IsTrans SpecRow specOrder := by
  constructor
  intro a b c hab hbc
  unfold specOrder at *
  by_cases hap : (a.status == "pending") = true <;>
    by_cases hbp : (b.status == "pending") = true <;>
    by_cases hcp : (c.status == "pending") = true <;>
    simp_all <;> exact le_trans hab hbc

/-- The selection rule of `claim_pending` as the specification words it
(for comparison with `get_pending_tasks`): rows whose status is in
`{pending, failed}` and whose `next_retry` is `0` or `≤ now`, ordered
pending-first then by `created_time`, up to `limit` rows. -/
def claim_pending_spec_select (db : List SpecRow) (limit : Nat) (now : Rat) :
    List SpecRow :=
  (((db.filter (fun r =>
      (r.status == "pending" || r.status == "failed") &&
      (r.next_retry == 0 || decide (r.next_retry ≤ now)))).insertionSort
    specOrder).take limit)

end Storage

namespace Breaker

/-- Embedding of `CircuitBreakerConfig` (persistence/task_store.py). -/
structure Config where
  failure_threshold : Nat
  success_threshold : Nat
  timeout : Rat
  half_open_timeout : Rat
deriving Repr, DecidableEq

/-- Embedding of `BreakerState` (circuit_breaker/breaker.py). -/
structure State where
  state : String
  failure_count : Nat
  success_count : Nat
  last_state_change : Rat
  last_failure_time : Option Rat
  last_success_time : Option Rat
deriving Repr, DecidableEq

/-- Embedding of `CircuitBreaker._set_breaker_state`: records the new
state name and `last_state_change = now`; entering `closed` resets both
counters, entering `half_open` resets the success counter. -/
def set_breaker_state (s : State) (newState : String) (now : Rat) : State :=
  let s1 : State := { s with state := newState, last_state_change := now }
  if newState == "closed" then
    { s1 with failure_count := 0, success_count := 0 }
  else if newState == "half_open" then
    { s1 with success_count := 0 }
  else s1

/-- Embedding of `CircuitBreaker._allow_half_open_request`. -/
def allow_half_open_request (cfg : Config) (s : State) (now : Rat) : Bool :=
  if now - s.last_state_change > cfg.half_open_timeout then true
  else s.success_count < 1

/-- Embedding of `CircuitBreaker.can_execute`: returns the decision and
the (possibly updated) persisted state — the only mutation is the
`open → half_open` move when the timeout has elapsed. -/
def can_execute (cfg : Config) (s : State) (now : Rat) : Bool × State :=
  if s.state == "open" then
    if now - s.last_state_change > cfg.timeout then
      (true, set_breaker_state s "half_open" now)
    else (false, s)
  else if s.state == "half_open" then
    (allow_half_open_request cfg s now, s)
  else (true, s)

/-- Embedding of `CircuitBreaker.record_success`. -/
def record_success (cfg : Config) (s : State) (now : Rat) : State :=
  if s.state == "half_open" then
    if s.success_count + 1 ≥ cfg.success_threshold then
      set_breaker_state s "closed" now
    else
      { s with success_count := s.success_count + 1,
               last_success_time := some now }
  else
    { s with failure_count := 0, last_success_time := some now }

/-- Embedding of `CircuitBreaker.record_failure` (for an existing
state row). -/
def record_failure (cfg : Config) (s : State) (now : Rat) : State :=
  let nfc := s.failure_count + 1
  if s.state == "half_open" then
    set_breaker_state s "open" now
  else if nfc ≥ cfg.failure_threshold then
    set_breaker_state s "open" now
  else
    { s with failure_count := nfc, last_failure_time := some now }

end Breaker

namespace Health

/-- The outcome of one probe of `qbt_client.get_app_version()`:
either a response with its measured duration, or a raised error. -/
inductive ProbeOutcome where
  | ok (response_time : Rat)
  | err (msg : String)
deriving Repr, DecidableEq

/-- Embedding of the classification step of
`QBittorrentHealthChecker.check_health` (the non-cached path): given
the current consecutive-failure counter and the probe outcome, returns
the new status string and the new counter.  The code classifies
`response_time > 5.0` as degraded, otherwise healthy; an error
increments the counter and yields unhealthy once it reaches 3. -/
def check_health_step (consecutive_failures : Nat) (o : ProbeOutcome) :
    String × Nat :=
  match o with
  | .ok rt => (if rt > 5 then "degraded" else "healthy", 0)
  | .err _ =>
    let f := consecutive_failures + 1
    (if f ≥ 3 then "unhealthy" else "degraded", f)

/-- Embedding of `QBittorrentHealthChecker.should_pause_processing`
as a function of the (fresh) health status. -/
def should_pause_processing (status : String) : Bool :=
  status == "unhealthy"

/-- Embedding of `QBittorrentHealthChecker.get_processing_speed_factor`
as a function of the (fresh) health status: the `factors` dictionary
with default 0.0. -/
def get_processing_speed_factor (status : String) : Rat :=
  if status == "healthy" then 1
  else if status == "degraded" then 3 / 10
  else if status == "unhealthy" then 0
  else 0

end Health

namespace Stalled

/-- Embedding of `StalledSeedInfo` (monitor/stalled_monitor.py). -/
structure SeedInfo where
  torrent_hash : String
  name : String
  progress : Rat
  state : String
  tracked_since : Rat
  priority_downgraded : Bool
deriving Repr, DecidableEq

/-- One observation of a torrent from the stalled scan. -/
structure TorrentObs where
  hash : String
  name : String
  progress : Rat
  state : String
deriving Repr, DecidableEq

/-- Configuration fields consulted by the stalled monitor. -/
structure Config where
  progress_threshold : Rat
  min_stalled_minutes : Rat
deriving Repr, DecidableEq

/-- Embedding of `StalledSeedMonitor._get_or_create_seed_info` for a
single torrent: reuse the tracked entry, else create one with
`tracked_since = now` and `priority_downgraded = false`. -/
def get_or_create_seed_info (tracked : Option SeedInfo) (t : TorrentObs)
    (now : Rat) : SeedInfo :=
  match tracked with
  | some s => s
  | none =>
    { torrent_hash := t.hash, name := t.name, progress := t.progress,
      state := t.state, tracked_since := now, priority_downgraded := false }

/-- Embedding of `StalledSeedMonitor._has_progress_changed`. -/
def has_progress_changed (s : SeedInfo) (current_progress : Rat) : Bool :=
  |current_progress - s.progress| > 1 / 1000

/-- Embedding of `StalledSeedMonitor._should_downgrade_priority`. -/
def should_downgrade_priority (cfg : Config) (s : SeedInfo) (now : Rat) :
    Bool :=
  if s.priority_downgraded then false
  else (now - s.tracked_since) / 60 ≥ cfg.min_stalled_minutes

/-- Embedding of `StalledSeedMonitor._process_stalled_torrent` for one
torrent.  `demoteOk` is whether the `torrents_bottom_priority` call
succeeds.  Returns the tracking entry after the pass, whether a
demotion call was issued, and whether it was applied (succeeded). -/
def process_stalled_torrent (cfg : Config) (tracked : Option SeedInfo)
    (t : TorrentObs) (now : Rat) (demoteOk : Bool) :
    Option SeedInfo × Bool × Bool :=
  if t.progress ≥ cfg.progress_threshold then (tracked, false, false)
  else
    let s := get_or_create_seed_info tracked t now
    if has_progress_changed s t.progress then
      (some { s with tracked_since := now, progress := t.progress,
                     state := t.state },
       false, false)
    else
      let s1 : SeedInfo := { s with progress := t.progress, state := t.state }
      if should_downgrade_priority cfg s1 now then
        if demoteOk then
          (some { s1 with priority_downgraded := true }, true, true)
        else (some s1, true, false)
      else (some s1, false, false)

/-- Successive passes of the monitor over one torrent that stays in the
stalled set: fold `process_stalled_torrent` over the observations and
count the demotions that were applied. -/
def run_trace (cfg : Config) (tracked : Option SeedInfo) :
    List (TorrentObs × Rat × Bool) → Option SeedInfo × Nat
  | [] => (tracked, 0)
  | (t, now, ok) :: rest =>
    let step := process_stalled_torrent cfg tracked t now ok
    let next := run_trace cfg step.1 rest
    (next.1, (if step.2.2 then 1 else 0) + next.2)

end Stalled

namespace RetryEngine

/-- Embedding of `RetryStrategyConfig` (retry_engine/strategies.py). -/
structure StrategyConfig where
  base_delay : Rat
  max_delay : Rat
  max_retries : Option Nat
  backoff_multiplier : Rat
  jitter_factor : Rat
deriving Repr, DecidableEq

/-- Pre-jitter delay of `ExponentialBackoffStrategy.calculate_delay`:
`base_delay` for `retry_count = 0`, else
`base_delay * multiplier ^ min(retry_count, 10)`, capped at
`max_delay`. -/
def exp_pre_jitter_delay (cfg : StrategyConfig) (retry_count : Nat) : Rat :=
  let base :=
    if retry_count == 0 then cfg.base_delay
    else cfg.base_delay * cfg.backoff_multiplier ^ min retry_count 10
  min base cfg.max_delay

/-- Embedding of `RetryStrategy.add_jitter`; `u` is the value sampled
by `random.uniform(-jitter_factor, jitter_factor)`. -/
def add_jitter (delay u : Rat) : Rat :=
  max 1 (delay + delay * u)

/-- `ExponentialBackoffStrategy.calculate_delay` with the sampled
jitter made explicit. -/
def calculate_delay_exp (cfg : StrategyConfig) (retry_count : Nat)
    (u : Rat) : Rat :=
  add_jitter (exp_pre_jitter_delay cfg retry_count) u

end RetryEngine

namespace Worker

/-- The store calls `TaskManager._handle_failure` can issue.
`completeTask` is the deletion performed by `complete_task` on the
success / torrent-not-found paths; `scheduleRetry` keeps the task and
reschedules it. -/
inductive StoreAction where
  | completeTask (torrent_hash task_type : String)
  | scheduleRetry (torrent_hash task_type : String) (next_retry : Rat)
      (failure_reason : String)
deriving Repr, DecidableEq

/-- Whether the action deletes the task row. -/
def StoreAction.deletes : StoreAction → Bool
  | .completeTask _ _ => true
  | .scheduleRetry _ _ _ _ => false

/-- Embedding of `TaskManager._handle_failure`
(monitor/task_manager.py): `engineResult` is the value returned by
`retry_engine.calculate_next_retry`.  `None` means the retry budget is
exhausted; the handler then schedules a retry one hour out with reason
`max_retries_reached:<original>`; otherwise it schedules the computed
retry. -/
def handle_failure (torrent_hash task_type : String)
    (engineResult : Option Rat) (now : Rat) (failure_reason : String) :
    StoreAction :=
  match engineResult with
  | none =>
    .scheduleRetry torrent_hash task_type (now + 3600)
      ("max_retries_reached:" ++ failure_reason)
  | some nextRetry =>
    .scheduleRetry torrent_hash task_type nextRetry failure_reason

/-- A row of the `tasks` table of persistence/task_store.py (the fields
touched by `update_task_after_processing`). -/
structure PRow where
  task_uuid : String
  status : String
  retry_count : Nat
  failure_reason : Option String
  next_retry_time : Option Rat
  updated_time : Rat
  last_success_time : Option Rat
deriving Repr, DecidableEq

/-- Embedding of `TaskStore.update_task_after_processing`
(persistence/task_store.py): on success the row becomes `completed`;
on failure it becomes `waiting` with an incremented retry count, the
failure reason and the next retry time stored — in both cases the row
stays in the table. -/
def update_task_after_processing (db : List PRow) (uuid : String)
    (success : Bool) (failure_reason : Option String)
    (next_retry_time : Option Rat) (now : Rat) : List PRow :=
  if success then
    db.map (fun r =>
      if r.task_uuid == uuid then
        { r with status := "completed", last_success_time := some now,
                 updated_time := now }
      else r)
  else
    db.map (fun r =>
      if r.task_uuid == uuid then
        { r with status := "waiting", retry_count := r.retry_count + 1,
                 failure_reason := failure_reason,
                 next_retry_time := next_retry_time, updated_time := now }
      else r)

end Worker

namespace Events

/-- A torrent record as the event handler reads it. -/
structure TorrentInfo where
  hash : String
  name : String
  category : String
deriving Repr, DecidableEq

/-- Outcome of `get_torrent_by_hash_with_error`. -/
inductive TorrentLookup where
  | found (t : TorrentInfo)
  | notFound
  | apiError
  | networkError
  | unknownFailure
deriving Repr, DecidableEq

/-- One entry of the torrent file list. -/
structure FileInfo where
  name : String
  priority : Nat
  index : Nat
deriving Repr, DecidableEq

/-- Embedding of `EventHandler.should_process_torrent`
(core/events.py): with no configured categories every torrent is
processed, otherwise the torrent category must be whitelisted. -/
def should_process_torrent (categories : List String) (t : TorrentInfo) :
    Bool :=
  if categories.isEmpty then true
  else categories.contains t.category

/-- Embedding of `EventHandler._get_and_validate_torrent`
(core/events.py): maps the lookup outcome to a status string, or
passes the torrent through with status `continue` when it exists and
survives the category filter. -/
def get_and_validate_torrent (categories : List String)
    (lookup : TorrentLookup) : Option TorrentInfo × String :=
  match lookup with
  | .notFound => (none, "torrent_not_found")
  | .apiError => (none, "qbit_api_error")
  | .networkError => (none, "network_error")
  | .unknownFailure => (none, "retry_later")
  | .found t =>
    if should_process_torrent categories t then (some t, "continue")
    else (none, "success")

/-- Embedding of `EventHandler.process_torrent_addition`
(core/events.py).  `files` is the result of
`qbt_client.get_torrent_files`; `shouldDisable` is the
`file_ops.should_disable_file` predicate; `setPriorityOk` is whether
`set_torrent_file_priority` succeeds. -/
def process_torrent_addition (categories : List String)
    (lookup : TorrentLookup) (files : List FileInfo)
    (shouldDisable : String → Bool) (setPriorityOk : Bool) : String :=
  let v := get_and_validate_torrent categories lookup
  if v.2 != "continue" then v.2
  else if files.isEmpty then "metadata_not_ready"
  else
    let filesToDisable :=
      (files.filter (fun f => shouldDisable f.name && f.priority != 0)).map
        (fun f => f.index)
    if filesToDisable.isEmpty then "success"
    else if setPriorityOk then "success"
    else "retry_later"

end Events

namespace Scanner

/-- A torrent as `core/client.py` sees it in `torrents_info()`: its
hash, name, state string and tag list (the comma-separated `tags`
string already split on `", "`). -/
structure ScanTorrent where
  hash : String
  name : String
  state : String
  tags : List String
deriving Repr, DecidableEq

/-- Embedding of `QBittorrentClient.get_torrents_by_tag`
(core/client.py): keeps the torrents whose tag list contains `tag` and
whose hash differs from their name.  The function takes no
`exclude_states` parameter and performs no state filtering. -/
def get_torrents_by_tag (torrents : List ScanTorrent) (tag : String) :
    List ScanTorrent :=
  torrents.filter (fun t => t.tags.contains tag && t.hash != t.name)

/-- Embedding of `TaskManager._scan_added_tasks` together with
`_process_added_torrent` (core/tasks.py): for every torrent fetched by
`get_torrents_by_tag(added_tag)` (no state filter), create an `added`
task unless one exists.  Only the task-store effect is modelled. -/
def scan_added_tasks (db : List Storage.Row) (torrents : List ScanTorrent)
    (added_tag : String) (now : Rat) : List Storage.Row :=
  (get_torrents_by_tag torrents added_tag).foldl
    (fun acc t =>
      if Storage.task_exists acc t.hash "added" then acc
      else (Storage.save_task acc t.hash "added" now).2)
    db

end Scanner

namespace CoreTasks

/-- Embedding of `TaskManager._get_files_to_disable` (core/tasks.py):
the indices of the files whose priority is non-zero and whose name the
`file_manager.should_disable_file` predicate matches. -/
def get_files_to_disable (files : List Events.FileInfo)
    (shouldDisable : String → Bool) : List Nat :=
  (files.filter (fun f => f.priority != 0 && shouldDisable f.name)).map
    (fun f => f.index)

/-- Embedding of `TaskManager._process_added_task` (core/tasks.py),
the handler `main.py` wires: `files` is the result of
`client.get_torrent_files`; an empty list logs a warning and returns
`True`; otherwise the matching files are disabled, returning the
`set_file_priority` outcome (or `True` when nothing matches). -/
def process_added_task (files : List Events.FileInfo)
    (shouldDisable : String → Bool) (setPriorityOk : Bool) : Bool :=
  if files.isEmpty then true
  else
    let files_to_disable := get_files_to_disable files shouldDisable
    if files_to_disable.isEmpty then true
    else setPriorityOk

end CoreTasks

/-- C1 (counterexample): with a single existing `pending` row for
`("a", "added")`, re-running `save_task("a", "added")` returns `true`
(the claim demands `false`) and mutates the stored row (the claim
demands a no-op): `updated_time` is refreshed. -/
theorem save_task_rerun_counterexample :
    (Storage.save_task [⟨"a", "added", "pending", 0, 0, 0⟩] "a" "added" 5).1
      = true
    ∧ (Storage.save_task [⟨"a", "added", "pending", 0, 0, 0⟩] "a" "added" 5).2
      = [⟨"a", "added", "pending", 0, 0, 5⟩]
    ∧ [⟨"a", "added", "pending", 0, 0, (5 : Rat)⟩]
      ≠ [(⟨"a", "added", "pending", 0, 0, 0⟩ : Storage.Row)] := by
  refine ⟨by decide, by decide, by decide⟩

/-- C1 (amended): `save_task(h, t)` returns `false` iff some existing
row with torrent hash `h` (any task type) has status `processing`, and
then the table is unchanged; otherwise it returns `true` — appending a
fresh pending row when no `(h, t)` row exists. -/
theorem save_task_false_iff_hash_processing (db : List Storage.Row)
    (h t : String) (now : Rat) :
    ((Storage.save_task db h t now).1 = false ↔
      ∃ r ∈ db, r.torrent_hash = h ∧ r.status = "processing")
    ∧ ((∀ r ∈ db, ¬(r.torrent_hash = h ∧ r.status = "processing")) →
        (Storage.save_task db h t now).1 = true)
    ∧ ((Storage.save_task db h t now).1 = false →
        (Storage.save_task db h t now).2 = db)
    ∧ ((∀ r ∈ db, ¬(r.torrent_hash = h ∧ r.status = "processing")) →
        (∀ r ∈ db, ¬(r.torrent_hash = h ∧ r.task_type = t)) →
        (Storage.save_task db h t now).2 =
          db ++ [⟨h, t, "pending", 0, now, now⟩]) := by
  by_cases hproc :
      db.any (fun r => r.torrent_hash == h && r.status == "processing") = true
  · have hex : ∃ r ∈ db, r.torrent_hash = h ∧ r.status = "processing" := by
      simpa [List.any_eq_true] using hproc
    refine ⟨?_, ?_, ?_, ?_⟩
    · simp [Storage.save_task, hproc, hex]
    · intro hall
      obtain ⟨r, hr, hrh, hrs⟩ := hex
      exact absurd ⟨hrh, hrs⟩ (hall r hr)
    · intro _; simp [Storage.save_task, hproc]
    · intro hall _
      obtain ⟨r, hr, hrh, hrs⟩ := hex
      exact absurd ⟨hrh, hrs⟩ (hall r hr)
  · have hnex : ¬∃ r ∈ db, r.torrent_hash = h ∧ r.status = "processing" := by
      intro hex
      exact hproc (by simpa [List.any_eq_true] using hex)
    by_cases hexist :
        db.any (fun r => r.torrent_hash == h && r.task_type == t) = true
    · have haff :
          db.any (fun r =>
            r.torrent_hash == h && r.task_type == t &&
              r.status != "processing") = true := by
        rw [List.any_eq_true] at hexist ⊢
        obtain ⟨r, hr, hcond⟩ := hexist
        refine ⟨r, hr, ?_⟩
        have hht : r.torrent_hash = h ∧ r.task_type = t := by
          simpa using hcond
        have hs : r.status ≠ "processing" := by
          intro hcontra
          exact hnex ⟨r, hr, hht.1, hcontra⟩
        simp [hht.1, hht.2, hs]
      refine ⟨?_, ?_, ?_, ?_⟩
      · constructor
        · intro hfalse
          exfalso
          have htrue : (Storage.save_task db h t now).1 = true := by
            simp [Storage.save_task, hproc, hexist, haff]
          rw [htrue] at hfalse; exact Bool.noConfusion hfalse
        · intro hex; exact absurd hex hnex
      · intro _
        simp [Storage.save_task, hproc, hexist, haff]
      · intro hfalse
        exfalso
        have htrue : (Storage.save_task db h t now).1 = true := by
          simp [Storage.save_task, hproc, hexist, haff]
        rw [htrue] at hfalse; exact Bool.noConfusion hfalse
      · intro _ hnone
        exfalso
        rw [List.any_eq_true] at hexist
        obtain ⟨r, hr, hcond⟩ := hexist
        have hht : r.torrent_hash = h ∧ r.task_type = t := by
          simpa using hcond
        exact absurd hht (hnone r hr)
    · refine ⟨?_, ?_, ?_, ?_⟩
      · constructor
        · intro hfalse
          exfalso
          have htrue : (Storage.save_task db h t now).1 = true := by
            simp [Storage.save_task, hproc, hexist]
          rw [htrue] at hfalse; exact Bool.noConfusion hfalse
        · intro hex; exact absurd hex hnex
      · intro _; simp [Storage.save_task, hproc, hexist]
      · intro hfalse
        exfalso
        have htrue : (Storage.save_task db h t now).1 = true := by
          simp [Storage.save_task, hproc, hexist]
        rw [htrue] at hfalse; exact Bool.noConfusion hfalse
      · intro _ _
        simp [Storage.save_task, hproc, hexist]

/-- Witness for `save_task_false_iff_hash_processing` at a concrete
table: on an empty table, `save_task` inserts the fresh pending row. -/
theorem save_task_false_iff_hash_processing_witness :
    (Storage.save_task [] "a" "added" 2).2 =
      [⟨"a", "added", "pending", 0, 2, 2⟩] :=
  (save_task_false_iff_hash_processing [] "a" "added" 2).2.2.2
    (by intro r hr; cases hr) (by intro r hr; cases hr)

/-- C10: whenever any existing row with torrent hash `h` — regardless
of its task type — has status `processing`, `save_task(h, t)` returns
`false` and leaves the table untouched. -/
theorem save_task_hash_processing_blocks_any_type
    (db : List Storage.Row) (h t : String) (now : Rat)
    (r : Storage.Row) (hr : r ∈ db) (hh : r.torrent_hash = h)
    (hs : r.status = "processing") :
    Storage.save_task db h t now = (false, db) := by
  have hproc :
      db.any (fun x => x.torrent_hash == h && x.status == "processing")
        = true := by
    rw [List.any_eq_true]
    exact ⟨r, hr, by simp [hh, hs]⟩
  simp [Storage.save_task, hproc]

/-- Witness for `save_task_hash_processing_blocks_any_type`: a hash that
is `processing` for the `completed` phase blocks enqueuing the `added`
phase. -/
theorem save_task_hash_processing_blocks_any_type_witness :
    Storage.save_task [⟨"a", "completed", "processing", 0, 0, 0⟩]
      "a" "added" 9
      = (false, [⟨"a", "completed", "processing", 0, 0, 0⟩]) :=
  save_task_hash_processing_blocks_any_type
    [⟨"a", "completed", "processing", 0, 0, 0⟩] "a" "added" 9
    ⟨"a", "completed", "processing", 0, 0, 0⟩ (by simp) rfl rfl

/-- C3: when the retry engine returns `None` (budget exhausted),
`_handle_failure` issues a `schedule_retry` at `now + 3600` with reason
`max_retries_reached:<original>`; the issued action is not a deletion,
and the store-side failure update (`update_task_after_processing` with
`success = False`) keeps every row: the table's uuid column is
unchanged. -/
theorem handle_failure_budget_exhausted_keeps_task
    (h t reason : String) (now : Rat) (db : List Worker.PRow)
    (uuid : String) (nrt : Option Rat) :
    Worker.handle_failure h t none now reason
      = Worker.StoreAction.scheduleRetry h t (now + 3600)
          ("max_retries_reached:" ++ reason)
    ∧ (Worker.handle_failure h t none now reason).deletes = false
    ∧ (Worker.update_task_after_processing db uuid false (some reason) nrt
        now).map (fun r => r.task_uuid) = db.map (fun r => r.task_uuid) := by
  refine ⟨rfl, rfl, ?_⟩
  unfold Worker.update_task_after_processing
  simp only [if_neg (by simp : ¬(false = true)), List.map_map]
  apply List.map_congr_left
  intro r _
  by_cases hu : r.task_uuid = uuid <;> simp [hu]

/-- In the events-pipeline handler (core/events.py), for an `added`
task whose torrent exists and passes the category filter, an empty
file list makes `process_torrent_addition` return
`metadata_not_ready`, which is not the success outcome.  This is the
behaviour the specification describes; the handler `main.py` actually
wires diverges from it, see the C4 theorem below. -/
theorem process_torrent_addition_empty_files_metadata_not_ready
    (categories : List String) (t : Events.TorrentInfo)
    (shouldDisable : String → Bool) (setPriorityOk : Bool)
    (hcat : Events.should_process_torrent categories t = true) :
    Events.process_torrent_addition categories (.found t) [] shouldDisable
        setPriorityOk = "metadata_not_ready"
    ∧ (Events.process_torrent_addition categories (.found t) [] shouldDisable
        setPriorityOk == "success") = false := by
  constructor
  · simp [Events.process_torrent_addition, Events.get_and_validate_torrent, hcat]
  · simp [Events.process_torrent_addition, Events.get_and_validate_torrent, hcat]

/-- Witness for `process_torrent_addition_empty_files_metadata_not_ready`
with an empty category whitelist (every torrent passes the filter). -/
theorem process_torrent_addition_empty_files_witness :
    Events.process_torrent_addition [] (.found ⟨"h", "n", "movies"⟩) []
      (fun _ => false) true = "metadata_not_ready" :=
  (process_torrent_addition_empty_files_metadata_not_ready []
    ⟨"h", "n", "movies"⟩ (fun _ => false) true (by decide)).1

/-- C4 (code bug): `TaskManager._process_added_task` (core/tasks.py),
the `added` handler `main.py` wires, returns `True` on an empty file
list — the worker then treats the task as successful and
`_complete_task_success` deletes it via `complete_task` — instead of
the retryable `metadata_not_ready` outcome the specification gives and
the parallel events-pipeline handler (core/events.py) implements. -/
theorem process_added_task_empty_files_success :
    CoreTasks.process_added_task [] (fun _ => true) false = true
    ∧ Events.process_torrent_addition [] (.found ⟨"aaaa", "Movie", ""⟩)
        [] (fun _ => true) false = "metadata_not_ready"
    ∧ (Storage.complete_task [⟨"aaaa", "added", "processing", 0, 0, 0⟩]
        "aaaa" "added").2 = [] := by
  refine ⟨by decide, by decide, by decide⟩

/-- C5 (code bug): a torrent tagged `added` that is still in state
`metaDL` is fetched by `get_torrents_by_tag` (core/client.py takes no
`exclude_states` argument even though its docstring documents one), and
the scanner of core/tasks.py creates an `added` task for it. -/
theorem scan_added_tasks_metaDL_creates_task :
    Scanner.get_torrents_by_tag [⟨"aaaa", "Movie", "metaDL", ["added"]⟩] "added"
      = [⟨"aaaa", "Movie", "metaDL", ["added"]⟩]
    ∧ Scanner.scan_added_tasks [] [⟨"aaaa", "Movie", "metaDL", ["added"]⟩]
        "added" 3
      = [⟨"aaaa", "added", "pending", 0, 3, 3⟩] := by
  refine ⟨by decide, by decide⟩

/-- C6: while the breaker is `open`, `record_success` never moves the
state to `closed` (it stays `open`), `record_failure` also leaves it
`open`, and the only exit is `can_execute` moving it to `half_open`
exactly when `now − last_state_change` exceeds the configured timeout;
when the timeout has not elapsed `can_execute` leaves the state
record untouched and rejects the call. -/
theorem breaker_open_exits_only_by_timeout (cfg : Breaker.Config)
    (s : Breaker.State) (now : Rat) (hopen : s.state = "open") :
    (Breaker.record_success cfg s now).state = "open"
    ∧ (Breaker.record_failure cfg s now).state = "open"
    ∧ (now - s.last_state_change > cfg.timeout →
        (Breaker.can_execute cfg s now)
          = (true, Breaker.set_breaker_state s "half_open" now)
        ∧ (Breaker.can_execute cfg s now).2.state = "half_open")
    ∧ (¬(now - s.last_state_change > cfg.timeout) →
        Breaker.can_execute cfg s now = (false, s)) := by
  refine ⟨?_, ?_, ?_, ?_⟩
  · simp [Breaker.record_success, hopen]
  · unfold Breaker.record_failure
    by_cases hth : s.failure_count + 1 ≥ cfg.failure_threshold <;>
      simp [hopen, hth, Breaker.set_breaker_state]
  · intro htime
    constructor
    · simp [Breaker.can_execute, hopen, htime]
    · simp [Breaker.can_execute, hopen, htime, Breaker.set_breaker_state]
  · intro htime
    simp [Breaker.can_execute, hopen, htime]

/-- Witness for `breaker_open_exits_only_by_timeout` at the `qbit_api`
configuration with the timeout not yet elapsed. -/
theorem breaker_open_exits_only_by_timeout_witness :
    (Breaker.record_success ⟨3, 2, 60, 30⟩
      ⟨"open", 3, 0, 100, none, none⟩ 120).state = "open" :=
  (breaker_open_exits_only_by_timeout ⟨3, 2, 60, 30⟩
    ⟨"open", 3, 0, 100, none, none⟩ 120 rfl).1

/-- C7 (counterexample): a probe whose response time is exactly 5
seconds is classified `healthy` by the code (`response_time > 5.0` is
the degraded test), not `degraded` as the claim's `≥ 5 s` boundary
requires. -/
theorem health_boundary_five_counterexample :
    (Health.check_health_step 0 (.ok 5)).1 = "healthy"
    ∧ ((Health.check_health_step 0 (.ok 5)).1 == "degraded") = false := by
  refine ⟨by decide, by decide⟩

/-- C7 (amended): a response time ≤ 5 s classifies the monitor healthy
and > 5 s degraded; an error leaves it degraded for 1–2 consecutive
failures and unhealthy from the 3rd on; `should_pause_processing` is
true exactly for `unhealthy`, and the speed factor is 1.0 / 0.3 / 0.0
for healthy / degraded / unhealthy. -/
theorem health_classification_and_throttle (f : Nat) (rt : Rat)
    (msg : String) :
    (rt ≤ 5 → (Health.check_health_step f (.ok rt)).1 = "healthy")
    ∧ (rt > 5 → (Health.check_health_step f (.ok rt)).1 = "degraded")
    ∧ (f + 1 < 3 → (Health.check_health_step f (.err msg)).1 = "degraded")
    ∧ (3 ≤ f + 1 → (Health.check_health_step f (.err msg)).1 = "unhealthy")
    ∧ (∀ status : String,
        Health.should_pause_processing status = true ↔ status = "unhealthy")
    ∧ Health.get_processing_speed_factor "healthy" = 1
    ∧ Health.get_processing_speed_factor "degraded" = 3 / 10
    ∧ Health.get_processing_speed_factor "unhealthy" = 0 := by
  refine ⟨?_, ?_, ?_, ?_, ?_, by simp [Health.get_processing_speed_factor],
    by simp [Health.get_processing_speed_factor],
    by simp [Health.get_processing_speed_factor]⟩
  · intro hle
    simp [Health.check_health_step, not_lt.2 hle]
  · intro hgt
    simp [Health.check_health_step, hgt]
  · intro hlt
    simp [Health.check_health_step, Nat.not_le.2 hlt]
  · intro hge
    simp [Health.check_health_step, hge]
  · intro status
    simp [Health.should_pause_processing]

/-- Witness for `health_classification_and_throttle`: two consecutive
failures still classify as degraded. -/
theorem health_classification_and_throttle_witness :
    (Health.check_health_step 1 (.err "timeout")).1 = "degraded" :=
  (health_classification_and_throttle 1 0 "timeout").2.2.1 (by norm_num)

/-- C9: the exponential strategy's pre-jitter delay is `base_delay`
for `retry_count = 0` (the repository's configurations all satisfy
`base_delay ≤ max_delay`) and
`min(base_delay · multiplier ^ min(retry_count, 10), max_delay)`
otherwise; for any jitter sample `u ∈ [−jitter_factor, jitter_factor]`
the jittered delay equals `max(1, d · (1 + u))` and is therefore at
least 1. -/
theorem exp_backoff_delay_formula_and_floor
    (cfg : RetryEngine.StrategyConfig) (rc : Nat) (u : Rat)
    (hbm : cfg.base_delay ≤ cfg.max_delay)
    (_hu1 : -cfg.jitter_factor ≤ u) (_hu2 : u ≤ cfg.jitter_factor) :
    (rc = 0 → RetryEngine.exp_pre_jitter_delay cfg rc = cfg.base_delay)
    ∧ (rc ≠ 0 → RetryEngine.exp_pre_jitter_delay cfg rc
        = min (cfg.base_delay * cfg.backoff_multiplier ^ min rc 10)
            cfg.max_delay)
    ∧ RetryEngine.calculate_delay_exp cfg rc u
        = max 1 (RetryEngine.exp_pre_jitter_delay cfg rc * (1 + u))
    ∧ 1 ≤ RetryEngine.calculate_delay_exp cfg rc u := by
  refine ⟨?_, ?_, ?_, ?_⟩
  · intro h0
    simp [RetryEngine.exp_pre_jitter_delay, h0, min_eq_left hbm]
  · intro hne
    simp [RetryEngine.exp_pre_jitter_delay, hne]
  · unfold RetryEngine.calculate_delay_exp RetryEngine.add_jitter
    ring_nf
  · unfold RetryEngine.calculate_delay_exp RetryEngine.add_jitter
    exact le_max_left 1 _

/-- Witness for `exp_backoff_delay_formula_and_floor` at the
`qbit_api_error` configuration with the jitter sample at its upper
bound. -/
theorem exp_backoff_delay_formula_and_floor_witness :
    1 ≤ RetryEngine.calculate_delay_exp ⟨60, 600, none, 2, 1 / 10⟩ 0
          (1 / 10) :=
  (exp_backoff_delay_formula_and_floor ⟨60, 600, none, 2, 1 / 10⟩ 0
    (1 / 10) (by norm_num) (by norm_num) (by norm_num)).2.2.2

/-- Each claimed task comes from a selected row, with only
`updated_time` rewritten. -/
theorem claim_loop_mem_image (now : Rat) (sel : List Storage.Row) :
    ∀ db : List Storage.Row, ∀ task ∈ (Storage.claim_loop now sel db).1,
      ∃ s ∈ sel, task = { s with updated_time := now } := by
  induction sel with
  | nil => intro db task h; simp [Storage.claim_loop] at h
  | cons s rest ih =>
    intro db task h
    simp only [Storage.claim_loop] at h
    by_cases hc :
        (Storage.claim_row db s.torrent_hash s.task_type now).1 = true
    · rw [if_pos hc] at h
      rcases List.mem_cons.1 h with h1 | h2
      · exact ⟨s, List.mem_cons_self _ _, h1⟩
      · obtain ⟨s2, hs2, heq⟩ := ih _ task h2
        exact ⟨s2, List.mem_cons_of_mem _ hs2, heq⟩
    · rw [if_neg hc] at h
      obtain ⟨s2, hs2, heq⟩ := ih _ task h
      exact ⟨s2, List.mem_cons_of_mem _ hs2, heq⟩

/-- The claim loop returns at most as many tasks as were selected. -/
theorem claim_loop_length_le (now : Rat) (sel : List Storage.Row) :
    ∀ db : List Storage.Row,
      (Storage.claim_loop now sel db).1.length ≤ sel.length := by
  induction sel with
  | nil => intro db; simp [Storage.claim_loop]
  | cons s rest ih =>
    intro db
    simp only [Storage.claim_loop, List.length_cons]
    by_cases hc :
        (Storage.claim_row db s.torrent_hash s.task_type now).1 = true
    · rw [if_pos hc]
      exact Nat.succ_le_succ (ih _)
    · rw [if_neg hc]
      exact le_trans (ih _) (Nat.le_succ _)

/-- The `created_time` column of the returned tasks is a sublist of
the selected rows' `created_time` column (the claim loop keeps the
selection order). -/
theorem claim_loop_created_sublist (now : Rat) (sel : List Storage.Row) :
    ∀ db : List Storage.Row,
      ((Storage.claim_loop now sel db).1.map
        (fun r => r.created_time)).Sublist
        (sel.map (fun r => r.created_time)) := by
  induction sel with
  | nil => intro db; simp [Storage.claim_loop]
  | cons s rest ih =>
    intro db
    simp only [Storage.claim_loop, List.map]
    by_cases hc :
        (Storage.claim_row db s.torrent_hash s.task_type now).1 = true
    · rw [if_pos hc]
      exact List.Sublist.cons₂ _ (ih _)
    · rw [if_neg hc]
      exact List.Sublist.cons _ (ih _)

/-- The guarded update leaves every non-pending row untouched. -/
theorem claim_row_keeps_nonpending (db : List Storage.Row) (h t : String)
    (now : Rat) (r : Storage.Row) (hr : r ∈ db)
    (hs : r.status ≠ "pending") :
    r ∈ (Storage.claim_row db h t now).2 := by
  unfold Storage.claim_row
  have heq :
      (if r.torrent_hash == h && r.task_type == t &&
          r.status == "pending" then
        { r with status := "processing", updated_time := now }
      else r) = r := by
    simp [hs]
  exact heq ▸ List.mem_map_of_mem _ hr

/-- The whole claim loop leaves every non-pending row untouched. -/
theorem claim_loop_keeps_nonpending (now : Rat) (sel : List Storage.Row)
    (r : Storage.Row) (hs : r.status ≠ "pending") :
    ∀ db : List Storage.Row, r ∈ db →
      r ∈ (Storage.claim_loop now sel db).2 := by
  induction sel with
  | nil => intro db hr; simpa [Storage.claim_loop] using hr
  | cons s rest ih =>
    intro db hr
    simp only [Storage.claim_loop]
    exact ih _ (claim_row_keeps_nonpending db s.torrent_hash s.task_type
      now r hr hs)

/-- C2 (counterexample): a row in status `failed` with `next_retry = 0`
is eligible under the specification's `claim_pending` selection rule,
but `get_pending_tasks` (core/storage.py) returns nothing for a table
holding only that row: the code consults status `pending` only and the
schema has no `next_retry` column at all. -/
theorem get_pending_tasks_failed_row_counterexample :
    (Storage.claim_pending_spec_select [⟨"a", "added", "failed", 0, 0, 0⟩] 1 7)
      = [⟨"a", "added", "failed", 0, 0, 0⟩]
    ∧ (Storage.get_pending_tasks
        [Storage.SpecRow.toRow ⟨"a", "added", "failed", 0, 0, 0⟩] 1 7).1
      = [] := by
  refine ⟨by decide, by decide⟩

/-- C2 (amended): `get_pending_tasks(limit)` returns at most `limit`
tasks; every returned task is an existing `pending` row with
`updated_time` rewritten to now (so `failed` is never selected and no
retry-eligibility time is consulted); the returned tasks are ordered by
`created_time` ascending; and every row whose status is not `pending`
is still in the table unchanged afterwards. -/
theorem get_pending_tasks_claims_pending_only (db : List Storage.Row)
    (limit : Nat) (now : Rat) :
    (Storage.get_pending_tasks db limit now).1.length ≤ limit
    ∧ (∀ task ∈ (Storage.get_pending_tasks db limit now).1,
        task.status = "pending"
        ∧ ∃ r ∈ db, r.status = "pending"
            ∧ task = { r with updated_time := now })
    ∧ (Storage.get_pending_tasks db limit now).1.Pairwise Storage.byCreated
    ∧ (∀ r ∈ db, r.status ≠ "pending" →
        r ∈ (Storage.get_pending_tasks db limit now).2) := by
  have hselmem :
      ∀ s ∈ ((db.filter (fun r => r.status == "pending")).insertionSort
          Storage.byCreated).take limit,
        s ∈ db ∧ s.status = "pending" := by
    intro s hs
    have h1 : s ∈ (db.filter (fun r => r.status == "pending")).insertionSort
        Storage.byCreated := List.mem_of_mem_take hs
    have h2 : s ∈ db.filter (fun r => r.status == "pending") :=
      ((List.perm_insertionSort Storage.byCreated _).mem_iff).1 h1
    have h3 := List.mem_filter.1 h2
    exact ⟨h3.1, by simpa using h3.2⟩
  refine ⟨?_, ?_, ?_, ?_⟩
  · exact le_trans (claim_loop_length_le now _ db)
      (List.length_take_le _ _)
  · intro task htask
    obtain ⟨s, hs, heq⟩ := claim_loop_mem_image now _ db task htask
    obtain ⟨hsdb, hsp⟩ := hselmem s hs
    refine ⟨?_, s, hsdb, hsp, heq⟩
    rw [heq]
    exact hsp
  · have hsorted : ((db.filter (fun r => r.status == "pending")).insertionSort
        Storage.byCreated).Pairwise Storage.byCreated :=
      List.sorted_insertionSort Storage.byCreated _
    have hsortedTake :
        (((db.filter (fun r => r.status == "pending")).insertionSort
          Storage.byCreated).take limit).Pairwise Storage.byCreated :=
      hsorted.sublist (List.take_sublist _ _)
    have hmap :
        ((((db.filter (fun r => r.status == "pending")).insertionSort
          Storage.byCreated).take limit).map
            (fun r => r.created_time)).Pairwise (· ≤ ·) :=
      (List.pairwise_map).2 hsortedTake
    have hmap2 :
        (((Storage.get_pending_tasks db limit now).1).map
          (fun r => r.created_time)).Pairwise (· ≤ ·) :=
      hmap.sublist (claim_loop_created_sublist now _ db)
    have hfinal :=
      (List.pairwise_map
        (l := (Storage.get_pending_tasks db limit now).1)).1 hmap2
    exact hfinal
  · intro r hr hs
    exact claim_loop_keeps_nonpending now _ r hs db hr

/-- Witness for `get_pending_tasks_claims_pending_only` on a concrete
table: a `processing` row survives `get_pending_tasks` untouched. -/
theorem get_pending_tasks_claims_pending_only_witness :
    (⟨"b", "added", "processing", 0, 0, 0⟩ : Storage.Row) ∈
      (Storage.get_pending_tasks
        [⟨"a", "added", "pending", 0, 0, 0⟩,
         ⟨"b", "added", "processing", 0, 0, 0⟩] 5 9).2 :=
  (get_pending_tasks_claims_pending_only
    [⟨"a", "added", "pending", 0, 0, 0⟩,
     ⟨"b", "added", "processing", 0, 0, 0⟩] 5 9).2.2.2
    ⟨"b", "added", "processing", 0, 0, 0⟩ (by simp) (by decide)

/-- A tracked entry whose priority has already been downgraded is
never demoted again, and stays downgraded through any pass. -/
theorem process_stalled_keeps_downgraded (cfg : Stalled.Config)
    (s : Stalled.SeedInfo) (t : Stalled.TorrentObs) (now : Rat)
    (ok : Bool) (hd : s.priority_downgraded = true) :
    (Stalled.process_stalled_torrent cfg (some s) t now ok).2.2 = false
    ∧ ∃ s2, (Stalled.process_stalled_torrent cfg (some s) t now ok).1
          = some s2
        ∧ s2.priority_downgraded = true := by
  unfold Stalled.process_stalled_torrent
  by_cases h1 : t.progress ≥ cfg.progress_threshold
  · rw [if_pos h1]
    exact ⟨rfl, s, rfl, hd⟩
  · rw [if_neg h1]
    simp only [Stalled.get_or_create_seed_info]
    by_cases h2 : Stalled.has_progress_changed s t.progress = true
    · rw [if_pos h2]
      exact ⟨rfl, _, rfl, hd⟩
    · rw [if_neg h2]
      have hguard :
          Stalled.should_downgrade_priority cfg
            { s with progress := t.progress, state := t.state } now
            = false := by
        simp [Stalled.should_downgrade_priority, hd]
      rw [if_neg (by simp [hguard])]
      exact ⟨rfl, _, rfl, hd⟩

/-- Once the tracked entry is downgraded, no later pass applies
another demotion. -/
theorem run_trace_zero_of_downgraded (cfg : Stalled.Config)
    (trace : List (Stalled.TorrentObs × Rat × Bool)) :
    ∀ s : Stalled.SeedInfo, s.priority_downgraded = true →
      (Stalled.run_trace cfg (some s) trace).2 = 0 := by
  induction trace with
  | nil => intro s _; simp [Stalled.run_trace]
  | cons step rest ih =>
    intro s hd
    obtain ⟨t, now, ok⟩ := step
    obtain ⟨hap, s2, hentry, hd2⟩ :=
      process_stalled_keeps_downgraded cfg s t now ok hd
    simp only [Stalled.run_trace]
    rw [hap, hentry]
    simpa using ih s2 hd2

/-- If a pass applies the demotion, the resulting tracked entry is
marked downgraded. -/
theorem process_stalled_applied_downgraded (cfg : Stalled.Config)
    (tracked : Option Stalled.SeedInfo) (t : Stalled.TorrentObs)
    (now : Rat) (ok : Bool)
    (hap : (Stalled.process_stalled_torrent cfg tracked t now ok).2.2
      = true) :
    ∃ s2, (Stalled.process_stalled_torrent cfg tracked t now ok).1 = some s2
      ∧ s2.priority_downgraded = true := by
  unfold Stalled.process_stalled_torrent at hap ⊢
  by_cases h1 : t.progress ≥ cfg.progress_threshold
  · rw [if_pos h1] at hap
    exact absurd hap (by simp)
  · rw [if_neg h1] at hap ⊢
    by_cases h2 : Stalled.has_progress_changed
        (Stalled.get_or_create_seed_info tracked t now) t.progress = true
    · rw [if_pos h2] at hap
      exact absurd hap (by simp)
    · rw [if_neg h2] at hap ⊢
      by_cases h3 : Stalled.should_downgrade_priority cfg
          { Stalled.get_or_create_seed_info tracked t now with
              progress := t.progress, state := t.state } now = true
      · rw [if_pos h3] at hap ⊢
        by_cases hok : ok = true
        · rw [if_pos hok]
          exact ⟨_, rfl, rfl⟩
        · rw [if_neg hok] at hap
          exact absurd hap (by simp)
      · rw [if_neg h3] at hap
        exact absurd hap (by simp)

/-- Over any sequence of passes the demotion is applied at most
once. -/
theorem run_trace_at_most_one (cfg : Stalled.Config)
    (trace : List (Stalled.TorrentObs × Rat × Bool)) :
    ∀ tracked : Option Stalled.SeedInfo,
      (Stalled.run_trace cfg tracked trace).2 ≤ 1 := by
  induction trace with
  | nil => intro tracked; simp [Stalled.run_trace]
  | cons step rest ih =>
    intro tracked
    obtain ⟨t, now, ok⟩ := step
    simp only [Stalled.run_trace]
    by_cases hap :
        (Stalled.process_stalled_torrent cfg tracked t now ok).2.2 = true
    · obtain ⟨s2, hentry, hd2⟩ :=
        process_stalled_applied_downgraded cfg tracked t now ok hap
      rw [hap, hentry]
      simpa using run_trace_zero_of_downgraded cfg rest s2 hd2
    · rw [Bool.eq_false_iff.2 hap]
      simpa using ih _

/-- C8: the demotion call is issued only when the tracked entry has
`priority_downgraded = false` and
`now − tracked_since ≥ min_stalled_minutes · 60`; on success the new
entry is marked downgraded; and across any sequence of monitor passes
in which the torrent stays in the stalled set the demotion is applied
at most once. -/
theorem stalled_demotion_at_most_once (cfg : Stalled.Config)
    (tracked : Option Stalled.SeedInfo) (t : Stalled.TorrentObs)
    (now : Rat) (ok : Bool) :
    ((Stalled.process_stalled_torrent cfg tracked t now ok).2.1 = true →
      (Stalled.get_or_create_seed_info tracked t now).priority_downgraded
          = false
      ∧ cfg.min_stalled_minutes * 60 ≤
          now - (Stalled.get_or_create_seed_info tracked t now).tracked_since)
    ∧ ((Stalled.process_stalled_torrent cfg tracked t now ok).2.2 = true →
        ∃ s2, (Stalled.process_stalled_torrent cfg tracked t now ok).1
            = some s2
          ∧ s2.priority_downgraded = true)
    ∧ (∀ trace, (Stalled.run_trace cfg tracked trace).2 ≤ 1) := by
  refine ⟨?_,
    fun hap => process_stalled_applied_downgraded cfg tracked t now ok hap,
    fun trace => run_trace_at_most_one cfg trace tracked⟩
  intro hiss
  unfold Stalled.process_stalled_torrent at hiss
  by_cases h1 : t.progress ≥ cfg.progress_threshold
  · rw [if_pos h1] at hiss
    exact absurd hiss (by simp)
  · rw [if_neg h1] at hiss
    by_cases h2 : Stalled.has_progress_changed
        (Stalled.get_or_create_seed_info tracked t now) t.progress = true
    · rw [if_pos h2] at hiss
      exact absurd hiss (by simp)
    · rw [if_neg h2] at hiss
      by_cases h3 : Stalled.should_downgrade_priority cfg
          { Stalled.get_or_create_seed_info tracked t now with
              progress := t.progress, state := t.state } now = true
      · cases hpd :
            (Stalled.get_or_create_seed_info tracked t now).priority_downgraded
          with
        | false =>
          refine ⟨rfl, ?_⟩
          have h4 : cfg.min_stalled_minutes ≤
              (now - (Stalled.get_or_create_seed_info tracked
                t now).tracked_since) / 60 := by
            simpa [Stalled.should_downgrade_priority, hpd] using h3
          exact (le_div_iff₀ (by norm_num)).1 h4
        | true =>
          exfalso
          have hfalse : Stalled.should_downgrade_priority cfg
              { Stalled.get_or_create_seed_info tracked t now with
                  progress := t.progress, state := t.state } now = false := by
            simp [Stalled.should_downgrade_priority, hpd]
          rw [hfalse] at h3
          exact Bool.noConfusion h3
      · rw [if_neg h3] at hiss
        exact absurd hiss (by simp)

/-- Witness for `stalled_demotion_at_most_once`: a torrent stalled
since time 0 observed at time 0 under a zero-minute threshold is
demoted, and the resulting entry is marked downgraded. -/
theorem stalled_demotion_at_most_once_witness :
    ∃ s2, (Stalled.process_stalled_torrent ⟨1, 0⟩
        (some ⟨"h", "n", 0, "stalledDL", 0, false⟩)
        ⟨"h", "n", 0, "stalledDL"⟩ 0 true).1 = some s2
      ∧ s2.priority_downgraded = true :=
  (stalled_demotion_at_most_once ⟨1, 0⟩
    (some ⟨"h", "n", 0, "stalledDL", 0, false⟩)
    ⟨"h", "n", 0, "stalledDL"⟩ 0 true).2.1
    (by norm_num [Stalled.process_stalled_torrent,
      Stalled.get_or_create_seed_info, Stalled.has_progress_changed,
      Stalled.should_downgrade_priority])
